import Mathlib

/-!
Shallow embedding of the deribit-price-aggregator repository (Python) and
verification of its specification claims.

The embedding mirrors, definition by definition:
- `src/app_deribit/db_orm/models/models.py` (table `index_prices_deribit`),
- `src/app_deribit/pydantc_models/models.py` (`timestamp_validator`,
  `DeribitIndex`/`DeribitTimeZone`, `DateFilterStart`, `DateFilterEnd`),
- `src/app_deribit/db_orm/crud_orm/crud.py` (`get_all_by_ticker`,
  `get_last_price`, `get_by_date`, `insert_data`),
- `src/app_deribit/services_aiohttp/request_to.py` (`fetch_price`,
  `get_prices`),
- `src/app_deribit/app_fastapi/routers/routers.py` (the three read
  endpoints and their `response_model` serialization).

Modelling conventions: the database is a `List` of rows; timestamps and
instants are `Int` (the `created_at` column is modelled as epoch minutes in
UTC, `timestamp` as the raw integer the code stores); SQL
`SELECT ... WHERE ... ORDER BY ... LIMIT n` is filter, then a stable sort by
the ORDER BY key, then `take`; Python exceptions are `Except`; Python's
floor division `//` on `Int` is `Int.fdiv`.
-/

/-- A row of the `index_prices_deribit` table
(`src/app_deribit/db_orm/models/models.py`): `id` Integer primary key
autoincrement, `ticker` String(10), `price` Numeric(16,8), `timestamp`
BigInteger, `created_at` DateTime(timezone=True) with
`server_default=func.now()`.  All columns are declared non-optional
(NOT NULL).  `created_at` is modelled as an integer UTC instant
(epoch minutes). -/
structure IndexPriceDeribit where
  id : Int
  ticker : String
  price : Rat
  timestamp : Int
  created_at : Int
  deriving DecidableEq, Repr

/-- `timestamp_validator` (`src/app_deribit/pydantc_models/models.py`,
lines 19-28): `return value // 1000000`.  Python `//` on integers is floor
division, i.e. `Int.fdiv`. -/
def timestamp_validator (value : Int) : Int :=
  Int.fdiv value 1000000

/-- The `DeribitTimeZone` pydantic model
(`src/app_deribit/pydantc_models/models.py`, lines 31-71) as it results
from `model_validate` on a table row: `timestamp` passes through
`AfterValidator(timestamp_validator)`, and `created_at` passes through
`time_zone_validator`, which is `value.astimezone(local_zone)` — an
instant-preserving change of display zone, so the modelled UTC instant is
unchanged. -/
structure DeribitTimeZoneModel where
  id : Option Int
  ticker : String
  price : Rat
  timestamp : Int
  created_at : Option Int
  deriving DecidableEq, Repr

/-- `DeribitTimeZone.model_validate(index_price)` applied to a table row
(`from_attributes=True`). -/
def DeribitTimeZone_model_validate (r : IndexPriceDeribit) : DeribitTimeZoneModel :=
  { id := some r.id
    ticker := r.ticker
    price := r.price
    timestamp := timestamp_validator r.timestamp
    created_at := some r.created_at }

/-- The ORDER BY key `IndexPriceDeribit.timestamp` ascending. -/
def tsLe (a b : IndexPriceDeribit) : Prop := a.timestamp ≤ b.timestamp

/-- The ORDER BY key `IndexPriceDeribit.timestamp` descending. -/
def tsGe (a b : IndexPriceDeribit) : Prop := b.timestamp ≤ a.timestamp

instance : DecidableRel tsLe := fun a b => inferInstanceAs (Decidable (a.timestamp ≤ b.timestamp))

instance : DecidableRel tsGe := fun a b => inferInstanceAs (Decidable (b.timestamp ≤ a.timestamp))

instance : IsTotal IndexPriceDeribit tsLe := ⟨fun a b => Int.le_total a.timestamp b.timestamp⟩

instance : IsTotal IndexPriceDeribit tsGe := ⟨fun a b => Int.le_total b.timestamp a.timestamp⟩

instance : IsTrans IndexPriceDeribit tsLe := ⟨fun _ _ _ h1 h2 => le_trans h1 h2⟩

instance : IsTrans IndexPriceDeribit tsGe := ⟨fun _ _ _ h1 h2 => le_trans h2 h1⟩

/-- `get_all_by_ticker` (`src/app_deribit/db_orm/crud_orm/crud.py`,
lines 29-50): `SELECT * WHERE ticker = :ticker ORDER BY timestamp DESC
LIMIT :limit`. -/
def get_all_by_ticker (db : List IndexPriceDeribit) (ticker : String) (limit : Int) :
    List IndexPriceDeribit :=
  (((db.filter (fun r => r.ticker == ticker)).insertionSort tsGe).take limit.toNat)

/-- `get_last_price` (`src/app_deribit/db_orm/crud_orm/crud.py`,
lines 53-73): same query with `LIMIT 1`, returned through
`session.scalar`, i.e. the first row or `None`. -/
def get_last_price (db : List IndexPriceDeribit) (ticker : String) :
    Option IndexPriceDeribit :=
  ((db.filter (fun r => r.ticker == ticker)).insertionSort tsGe).head?

/-- `get_by_date` (`src/app_deribit/db_orm/crud_orm/crud.py`,
lines 76-97): `SELECT * WHERE ticker = :ticker AND created_at BETWEEN
:start AND :end ORDER BY timestamp ASC LIMIT :limit`.  SQL `BETWEEN` is
inclusive on both ends; note the ORDER BY column is `timestamp`, not
`created_at`. -/
def get_by_date (db : List IndexPriceDeribit) (ticker : String)
    (startI endI : Int) (limit : Int) : List IndexPriceDeribit :=
  (((db.filter (fun r =>
      r.ticker == ticker && (startI ≤ r.created_at && r.created_at ≤ endI))).insertionSort
        tsLe).take limit.toNat)

/-- The `data_db` dictionary built by `fetch_price`
(`src/app_deribit/services_aiohttp/request_to.py`, line 43):
`{'price': price, 'timestamp': timestamp, 'ticker': ticker}` where `price`
and `timestamp` come from `dict.get` and may be `None`. -/
structure RawObservation where
  price : Option Rat
  timestamp : Option Int
  ticker : String
  deriving DecidableEq, Repr

/-- Database-level failures surfaced as `SQLAlchemyError` by
`insert_data`. -/
inductive DBError where
  | notNullViolation
  deriving DecidableEq, Repr

/-- `insert_data` (`src/app_deribit/db_orm/crud_orm/crud.py`,
lines 100-131): constructs `IndexPriceDeribit(**data)` with no pydantic
validation, `session.add`, `session.flush()`, then returns
`DeribitTimeZone.model_validate(index_price)` and commits.  The `price` and
`timestamp` columns are NOT NULL, so a `None` value in `data` fails the
flush with an `SQLAlchemyError`, which is re-raised; the transaction is
rolled back and the table is unchanged.  `id` is assigned by the
autoincrement sequence and `created_at` by the server clock `now`. -/
def insert_data (db : List IndexPriceDeribit) (now : Int) (data : RawObservation) :
    Except DBError (List IndexPriceDeribit × DeribitTimeZoneModel) :=
  match data.price, data.timestamp with
  | some p, some ts =>
      let row : IndexPriceDeribit :=
        { id := Int.ofNat db.length + 1
          ticker := data.ticker
          price := p
          timestamp := ts
          created_at := now }
      .ok (db ++ [row], DeribitTimeZone_model_validate row)
  | _, _ => .error .notNullViolation

/-- The upstream JSON body and HTTP status seen by `fetch_price`:
`data['result']['index_price']` and `data['usOut']` are read with
`dict.get` and may be absent. -/
structure UpstreamResponse where
  status : Nat
  result_index_price : Option Rat
  usOut : Option Int
  deriving DecidableEq, Repr

/-- Exceptions a single `fetch_price` task can raise, plus the
`MalformedResponse` / `MalformedTimestamp` error kinds named by the
specification taxonomy (§7), so that claims about them can be stated. -/
inductive FetchError where
  | upstreamError (status : Nat)
  | malformedResponse
  | malformedTimestamp
  | storageError (e : DBError)
  deriving DecidableEq, Repr

/-- `fetch_price` (`src/app_deribit/services_aiohttp/request_to.py`,
lines 19-45): `response.raise_for_status()` raises `ClientResponseError`
for status >= 400; otherwise it reads `result.index_price` and `usOut`
with `dict.get` (absent keys give `None`), builds `data_db` and awaits
`insert_data`, returning the validated `DeribitTimeZone` object.  An
`SQLAlchemyError` escaping `insert_data` propagates out of the task. -/
def fetch_price (db : List IndexPriceDeribit) (now : Int) (ticker : String)
    (resp : UpstreamResponse) :
    List IndexPriceDeribit × Except FetchError DeribitTimeZoneModel :=
  if 400 ≤ resp.status then
    (db, .error (.upstreamError resp.status))
  else
    let data_db : RawObservation :=
      { price := resp.result_index_price, timestamp := resp.usOut, ticker := ticker }
    match insert_data db now data_db with
    | .error e => (db, .error (.storageError e))
    | .ok (db2, model) => (db2, .ok model)

/-- `asyncio.gather(*tasks)` with the default `return_exceptions=False`:
if every task returns a value, the list of values in task order; if any
task raises, the exception propagates and no result list is produced
(modelled as the first failing task's exception). -/
def gather {ε α : Type} : List (Except ε α) → Except ε (List α)
  | [] => .ok []
  | .error e :: _ => .error e
  | .ok a :: rest =>
      match gather rest with
      | .error e => .error e
      | .ok l => .ok (a :: l)

/-- Runs every per-ticker `fetch_price` task of one cycle.  Each insert is
its own transaction on independent rows, so the concurrent tasks are
modelled as executed in ticker order; every task runs to completion and
produces its own outcome, returned in task order. -/
def runTasks (now : Int) (env : String → UpstreamResponse) :
    List IndexPriceDeribit → List String →
    List IndexPriceDeribit × List (Except FetchError DeribitTimeZoneModel)
  | db, [] => (db, [])
  | db, t :: ts =>
      let step := fetch_price db now t (env t)
      let rest := runTasks now env step.1 ts
      (rest.1, step.2 :: rest.2)

/-- `get_prices` (`src/app_deribit/services_aiohttp/request_to.py`,
lines 49-57): builds one `fetch_price` task per ticker and awaits
`asyncio.gather(*tasks)` (default `return_exceptions=False`), returning
the gathered result.  `env` gives the upstream response each ticker's HTTP
call receives and `now` the server clock assigning `created_at`. -/
def get_prices (db : List IndexPriceDeribit) (now : Int)
    (env : String → UpstreamResponse) (tickers : List String) :
    List IndexPriceDeribit × Except FetchError (List DeribitTimeZoneModel) :=
  let run := runTasks now env db tickers
  (run.1, gather run.2)

/-- Request-parameter validation failures of the read endpoints:
`fieldOutOfRange` is a pydantic `Field`/`Query` constraint violation
(rejected during FastAPI parameter validation), `invalidCalendarDate` is
the `ValueError` re-raised by the `dt_object` computed fields. -/
inductive RequestError where
  | fieldOutOfRange
  | invalidCalendarDate
  deriving DecidableEq, Repr

/-- The `limit` query parameter of `get_all_by_ticker` and `get_by_date`:
`Annotated[int, Query(ge=1)] = 100` — absent means the default 100, a
supplied value below 1 is rejected by FastAPI validation. -/
def limit_query_param (l : Option Int) : Except RequestError Int :=
  match l with
  | none => .ok 100
  | some v => if 1 ≤ v then .ok v else .error .fieldOutOfRange

/-- The five date parts of `DateFilterStart` / `DateFilterEnd` after
defaulting and field validation. -/
structure DateParts where
  year : Int
  month : Int
  day : Int
  hour : Int
  minute : Int
  deriving DecidableEq, Repr

/-- The five optional query parameters feeding `DateFilterStart` or
`DateFilterEnd` as sent by the caller. -/
structure RawDateParts where
  year : Option Int
  month : Option Int
  day : Option Int
  hour : Option Int
  minute : Option Int
  deriving DecidableEq, Repr

/-- `DateFilterStart` (`src/app_deribit/pydantc_models/models.py`,
lines 74-84): `start_year` in [2016, 2031] defaulting to 2016,
`start_month` in [1, 12] defaulting to 1, `start_day` in [1, 31]
defaulting to 1, `start_hour` in [0, 23] defaulting to 0, `start_minute`
in [0, 59] defaulting to 0; a supplied value outside its `Field(ge, le)`
range fails pydantic validation. -/
def mkDateFilterStart (p : RawDateParts) : Except RequestError DateParts :=
  let y := p.year.getD 2016
  let m := p.month.getD 1
  let d := p.day.getD 1
  let h := p.hour.getD 0
  let mi := p.minute.getD 0
  if 2016 ≤ y ∧ y ≤ 2031 ∧ 1 ≤ m ∧ m ≤ 12 ∧ 1 ≤ d ∧ d ≤ 31 ∧
      0 ≤ h ∧ h ≤ 23 ∧ 0 ≤ mi ∧ mi ≤ 59 then
    .ok ⟨y, m, d, h, mi⟩
  else
    .error .fieldOutOfRange

/-- `DateFilterEnd` (`src/app_deribit/pydantc_models/models.py`,
lines 112-122): identical `Field` ranges, but `end_year` defaults to 2031
(the other defaults are month 1, day 1, hour 0, minute 0). -/
def mkDateFilterEnd (p : RawDateParts) : Except RequestError DateParts :=
  let y := p.year.getD 2031
  let m := p.month.getD 1
  let d := p.day.getD 1
  let h := p.hour.getD 0
  let mi := p.minute.getD 0
  if 2016 ≤ y ∧ y ≤ 2031 ∧ 1 ≤ m ∧ m ≤ 12 ∧ 1 ≤ d ∧ d ≤ 31 ∧
      0 ≤ h ∧ h ≤ 23 ∧ 0 ≤ mi ∧ mi ≤ 59 then
    .ok ⟨y, m, d, h, mi⟩
  else
    .error .fieldOutOfRange

/-- Gregorian leap-year rule, as used by Python's `datetime`. -/
def is_leap_year (y : Int) : Bool :=
  y % 4 == 0 && (y % 100 != 0 || y % 400 == 0)

/-- Number of days of month `m` of year `y` in the proleptic Gregorian
calendar (Python `calendar`/`datetime` semantics). -/
def days_in_month (y m : Int) : Int :=
  if m == 2 then (if is_leap_year y then 29 else 28)
  else if m == 4 || m == 6 || m == 9 || m == 11 then 30
  else 31

/-- Whether `datetime(year, month, day, hour, minute)` succeeds in Python:
each component within its calendar range, the day not exceeding the
month's length. -/
def valid_datetime (p : DateParts) : Prop :=
  1 ≤ p.year ∧ p.year ≤ 9999 ∧ 1 ≤ p.month ∧ p.month ≤ 12 ∧
  1 ≤ p.day ∧ p.day ≤ days_in_month p.year p.month ∧
  0 ≤ p.hour ∧ p.hour ≤ 23 ∧ 0 ≤ p.minute ∧ p.minute ≤ 59

instance (p : DateParts) : Decidable (valid_datetime p) := by
  unfold valid_datetime
  infer_instance

/-- Days from 1970-01-01 to the civil date `y-m-d` (proleptic Gregorian),
the standard civil-to-days conversion used to realise `datetime`
arithmetic on integers. -/
def days_from_civil (y m d : Int) : Int :=
  let yAdj := if m ≤ 2 then y - 1 else y
  let era := Int.fdiv yAdj 400
  let yoe := yAdj - era * 400
  let mp := if 2 < m then m - 3 else m + 9
  let doy := Int.fdiv (153 * mp + 2) 5 + d - 1
  let doe := yoe * 365 + Int.fdiv yoe 4 - Int.fdiv yoe 100 + doy
  era * 146097 + doe - 719468

/-- `datetime(y, m, d, h, mi, tzinfo=local_zone).astimezone(timezone.utc)`
as a UTC instant in epoch minutes.  `local_zone` is
`ZoneInfo('Europe/Moscow')` (`config_env_variable.py`, line 20), a fixed
UTC+3 offset for every date the validated year range 2016-2031 can
produce (Moscow has had no DST since 2014), so the conversion subtracts
180 minutes from the local wall-clock time. -/
def epoch_minutes_utc (p : DateParts) : Int :=
  days_from_civil p.year p.month p.day * 1440 + p.hour * 60 + p.minute - 180

/-- `DateFilterStart.dt_object` (`src/app_deribit/pydantc_models/models.py`,
lines 90-110): builds `datetime(...)` from the parts in `local_zone`,
raising `ValueError` for an invalid calendar date, and returns
`.astimezone(timezone.utc)`.  `DateFilterEnd.dt_end_object`
(lines 125-145) is the identical computation on the end parts, so both
computed fields are modelled by this one definition. -/
def dt_object (p : DateParts) : Except RequestError Int :=
  if valid_datetime p then
    .ok (epoch_minutes_utc p)
  else
    .error .invalidCalendarDate

/-- The `GET /prices/period` pipeline
(`routers.py` lines 43-51 with `crud.py` lines 76-97): FastAPI validates
the query parameters (building `DateFilterStart`, `DateFilterEnd` and the
`limit` parameter; any `Field`/`Query` violation rejects the request
before the endpoint body runs), then `get_by_date` builds the SQL query —
evaluating `start.dt_object` and `end.dt_end_object`, whose `ValueError`
propagates before the statement is executed — and runs it. -/
def get_date_between (db : List IndexPriceDeribit) (ticker : String)
    (startRaw endRaw : RawDateParts) (limitRaw : Option Int) :
    Except RequestError (List IndexPriceDeribit) :=
  match mkDateFilterStart startRaw with
  | .error e => .error e
  | .ok startP =>
    match mkDateFilterEnd endRaw with
    | .error e => .error e
    | .ok endP =>
      match limit_query_param limitRaw with
      | .error e => .error e
      | .ok limit =>
        match dt_object startP with
        | .error e => .error e
        | .ok s =>
          match dt_object endP with
          | .error e => .error e
          | .ok e2 => .ok (get_by_date db ticker s e2 limit)

/-- `GET /prices` (`routers.py` lines 22-30): runs `get_all_by_ticker`
and serializes each returned row through the
`response_model=list[DeribitTimeZone]`, which applies
`timestamp_validator` and the display-zone conversion to every row. -/
def get_all_prices_endpoint (db : List IndexPriceDeribit) (ticker : String)
    (limitRaw : Option Int) : Except RequestError (List DeribitTimeZoneModel) :=
  match limit_query_param limitRaw with
  | .error e => .error e
  | .ok limit =>
    .ok ((get_all_by_ticker db ticker limit).map DeribitTimeZone_model_validate)

/-- `GET /prices/last` (`routers.py` lines 33-41): runs `get_last_price`
and serializes the result, when present, through
`response_model=Optional[DeribitTimeZone]`. -/
def get_last_db_price_endpoint (db : List IndexPriceDeribit) (ticker : String) :
    Option DeribitTimeZoneModel :=
  (get_last_price db ticker).map DeribitTimeZone_model_validate

/-- `GET /prices/period` (`routers.py` lines 43-51): the validated range
query, its rows serialized through `response_model=list[DeribitTimeZone]`. -/
def get_date_between_endpoint (db : List IndexPriceDeribit) (ticker : String)
    (startRaw endRaw : RawDateParts) (limitRaw : Option Int) :
    Except RequestError (List DeribitTimeZoneModel) :=
  (get_date_between db ticker startRaw endRaw limitRaw).map
    (List.map DeribitTimeZone_model_validate)

/-- The start parts as pydantic defaulting leaves them before field
validation (`DateFilterStart` defaults 2016-01-01 00:00). -/
def defaultedStart (p : RawDateParts) : DateParts :=
  ⟨p.year.getD 2016, p.month.getD 1, p.day.getD 1, p.hour.getD 0, p.minute.getD 0⟩

/-- The end parts as pydantic defaulting leaves them before field
validation (`DateFilterEnd` defaults 2031-01-01 00:00). -/
def defaultedEnd (p : RawDateParts) : DateParts :=
  ⟨p.year.getD 2031, p.month.getD 1, p.day.getD 1, p.hour.getD 0, p.minute.getD 0⟩

/-- When a single `fetch_price` task returns normally: success status and
both expected JSON fields present in the body. -/
def fetch_ok (resp : UpstreamResponse) : Prop :=
  resp.status < 400 ∧ resp.result_index_price.isSome = true ∧ resp.usOut.isSome = true

instance (resp : UpstreamResponse) : Decidable (fetch_ok resp) := by
  unfold fetch_ok
  infer_instance

/-- A successful upstream response (status 200, price 50000, usOut
timestamp 1700000000123456 microseconds). -/
def respOk : UpstreamResponse := ⟨200, some 50000, some 1700000000123456⟩

/-- An HTTP 500 upstream response. -/
def resp500 : UpstreamResponse := ⟨500, none, none⟩

/-- A success-status body from which `result.index_price` is absent. -/
def respNoPrice : UpstreamResponse := ⟨200, none, some 1700000000123456⟩

/-- The upstream environment of the partial-failure scenario: `btc_usd`
succeeds, `eth_usd` answers HTTP 500. -/
def env500 : String → UpstreamResponse := fun t =>
  if t == "eth_usd" then resp500 else respOk

/-- Upstream environment in which `eth_usd` answers with a success status
but without the `result.index_price` field. -/
def envNoPrice : String → UpstreamResponse := fun t =>
  if t == "eth_usd" then respNoPrice else respOk

/-- Concrete stored row: ingested at instant 10, observed timestamp 200. -/
def rowA : IndexPriceDeribit := ⟨1, "btc_usd", 50000, 200, 10⟩

/-- Concrete stored row: ingested at instant 20, observed timestamp 100
(ingested after `rowA` but observed before it). -/
def rowB : IndexPriceDeribit := ⟨2, "btc_usd", 51000, 100, 20⟩

/-- A period request with every date query parameter absent. -/
def rawNone : RawDateParts := ⟨none, none, none, none, none⟩

/-- The conjunction of the pydantic `Field(ge, le)` range checks of
`DateFilterStart` / `DateFilterEnd` on already-defaulted parts. -/
def field_ranges_ok (q : DateParts) : Prop :=
  2016 ≤ q.year ∧ q.year ≤ 2031 ∧ 1 ≤ q.month ∧ q.month ≤ 12 ∧
  1 ≤ q.day ∧ q.day ≤ 31 ∧ 0 ≤ q.hour ∧ q.hour ≤ 23 ∧
  0 ≤ q.minute ∧ q.minute ≤ 59

instance (q : DateParts) : Decidable (field_ranges_ok q) := by
  unfold field_ranges_ok
  infer_instance

theorem ticker_eq_of_mem_get_all_by_ticker {db : List IndexPriceDeribit} {t : String}
    {lim : Int} {r : IndexPriceDeribit} (h : r ∈ get_all_by_ticker db t lim) :
    r.ticker = t := by
  unfold get_all_by_ticker at h
  have h2 := List.mem_of_mem_take h
  have h3 : r ∈ db.filter (fun x => x.ticker == t) := by simpa using h2
  have h4 := (List.mem_filter.mp h3).2
  simpa using h4

theorem mem_db_of_mem_get_all_by_ticker {db : List IndexPriceDeribit} {t : String}
    {lim : Int} {r : IndexPriceDeribit} (h : r ∈ get_all_by_ticker db t lim) :
    r ∈ db := by
  unfold get_all_by_ticker at h
  have h2 := List.mem_of_mem_take h
  have h3 : r ∈ db.filter (fun x => x.ticker == t) := by simpa using h2
  exact (List.mem_filter.mp h3).1

theorem mem_db_of_mem_get_by_date {db : List IndexPriceDeribit} {t : String}
    {s e lim : Int} {r : IndexPriceDeribit} (h : r ∈ get_by_date db t s e lim) :
    r ∈ db := by
  unfold get_by_date at h
  have h2 := List.mem_of_mem_take h
  have h3 : r ∈ db.filter
      (fun x => x.ticker == t && (s ≤ x.created_at && x.created_at ≤ e)) := by
    simpa using h2
  exact (List.mem_filter.mp h3).1

/-- C5 counterexample: at input -1 the code's floor division returns -1,
while division truncated toward zero would return 0, so the claim's
"truncated toward zero" reading of `timestamp_validator` fails on
negative inputs. -/
theorem claim5_counterexample :
    timestamp_validator (-1) = -1 ∧ Int.tdiv (-1) 1000000 = 0 ∧
    timestamp_validator (-1) ≠ Int.tdiv (-1) 1000000 := by decide

/-- C5 (corrected): `timestamp_validator` is Python floor division by
1,000,000 (rounding toward negative infinity); it agrees with division
truncated toward zero exactly on nonnegative inputs. -/
theorem claim5_theorem (t : Int) :
    timestamp_validator t = Int.fdiv t 1000000 ∧
    (0 ≤ t → timestamp_validator t = Int.tdiv t 1000000) := by
  refine ⟨rfl, fun ht => Int.fdiv_eq_tdiv ht (by decide)⟩

/-- C5 witness: the corrected claim evaluated at the nonnegative input
2,500,000. -/
theorem claim5_witness : timestamp_validator 2500000 = Int.tdiv 2500000 1000000 :=
  (claim5_theorem 2500000).2 (by decide)

/-- C6 (confirmed): `get_last_price` returns `None` when the ticker has no
rows, and otherwise a row of that ticker whose `timestamp` is maximal
among the ticker's rows. -/
theorem claim6_theorem (db : List IndexPriceDeribit) (ticker : String) :
    (db.filter (fun x => x.ticker == ticker) = [] → get_last_price db ticker = none) ∧
    ∀ r, get_last_price db ticker = some r →
      r.ticker = ticker ∧ r ∈ db ∧
      ∀ r2 ∈ db, r2.ticker = ticker → r2.timestamp ≤ r.timestamp := by
  constructor
  · intro h
    unfold get_last_price
    rw [h]
    rfl
  · intro r hr
    unfold get_last_price at hr
    cases hs : (db.filter (fun x => x.ticker == ticker)).insertionSort tsGe with
    | nil => rw [hs] at hr; cases hr
    | cons a rest =>
      rw [hs] at hr
      have ha : a = r := by simpa using hr
      subst ha
      have hsorted := List.sorted_insertionSort tsGe (db.filter (fun x => x.ticker == ticker))
      rw [hs] at hsorted
      have hmem0 : a ∈ (db.filter (fun x => x.ticker == ticker)).insertionSort tsGe := by
        rw [hs]; exact List.mem_cons_self a rest
      have hmem : a ∈ db ∧ a.ticker = ticker := by simpa using hmem0
      refine ⟨hmem.2, hmem.1, ?_⟩
      intro r2 h2 ht2
      have h2f : r2 ∈ (db.filter (fun x => x.ticker == ticker)).insertionSort tsGe := by
        simp [List.mem_filter, h2, ht2]
      rw [hs] at h2f
      rcases List.mem_cons.mp h2f with h | h
      · exact le_of_eq (by rw [h])
      · exact List.rel_of_sorted_cons hsorted r2 h

/-- C6 witness: on the concrete table `[rowA, rowB]` the theorem applies to
the returned row `rowA`, the btc_usd row with maximal timestamp. -/
theorem claim6_witness :
    rowA.ticker = "btc_usd" ∧ rowA ∈ [rowA, rowB] ∧
      ∀ r2 ∈ [rowA, rowB], r2.ticker = "btc_usd" → r2.timestamp ≤ rowA.timestamp :=
  (claim6_theorem [rowA, rowB] "btc_usd").2 rowA (by decide)

/-- C7 (confirmed): `get_all_by_ticker` returns at most `limit` rows, all
of the requested ticker, ordered descending by `timestamp`; the `limit`
query parameter defaults to 100 when absent and values below 1 are
rejected by FastAPI validation. -/
theorem claim7_theorem (db : List IndexPriceDeribit) (ticker : String) (limit : Int) :
    (get_all_by_ticker db ticker limit).length ≤ limit.toNat ∧
    (∀ r ∈ get_all_by_ticker db ticker limit, r.ticker = ticker) ∧
    List.Sorted tsGe (get_all_by_ticker db ticker limit) ∧
    limit_query_param none = .ok 100 ∧
    ∀ v : Int, v < 1 → limit_query_param (some v) = .error .fieldOutOfRange := by
  refine ⟨?_, ?_, ?_, rfl, ?_⟩
  · unfold get_all_by_ticker
    exact List.length_take_le _ _
  · exact fun r hr => ticker_eq_of_mem_get_all_by_ticker hr
  · unfold get_all_by_ticker
    exact List.Pairwise.sublist (List.take_sublist _ _) (List.sorted_insertionSort tsGe _)
  · intro v hv
    show (if 1 ≤ v then Except.ok v else Except.error RequestError.fieldOutOfRange) = _
    rw [if_neg (by omega)]

/-- C7 witness: the theorem applied on the concrete table `[rowA, rowB]`
for the returned row `rowA`, and to the rejected limit value 0. -/
theorem claim7_witness :
    rowA.ticker = "btc_usd" ∧
    limit_query_param (some 0) = .error .fieldOutOfRange :=
  ⟨(claim7_theorem [rowA, rowB] "btc_usd" 2).2.1 rowA (by decide),
    (claim7_theorem [rowA, rowB] "btc_usd" 2).2.2.2.2 0 (by decide)⟩

/-- C3 counterexample: both rows lie inside the `created_at` window, and
the earlier-ingested `rowA` has the later observation timestamp;
`get_by_date` returns `[rowB, rowA]`, ordered by the observation
timestamp, which is descending — not ascending — in ingestion time. -/
theorem claim3_counterexample :
    get_by_date [rowA, rowB] "btc_usd" 0 100 10 = [rowB, rowA] ∧
    rowA.created_at < rowB.created_at := by
  constructor
  · decide
  · decide

/-- C3 (corrected): `get_by_date` returns only rows of the ticker whose
`created_at` lies in the inclusive window, at most `limit` of them, but
ordered ascending by the `timestamp` column (observation time), not by
ingestion time. -/
theorem claim3_theorem (db : List IndexPriceDeribit) (ticker : String)
    (startI endI limit : Int) :
    (∀ r ∈ get_by_date db ticker startI endI limit,
      r.ticker = ticker ∧ startI ≤ r.created_at ∧ r.created_at ≤ endI) ∧
    (get_by_date db ticker startI endI limit).length ≤ limit.toNat ∧
    List.Sorted tsLe (get_by_date db ticker startI endI limit) := by
  refine ⟨?_, ?_, ?_⟩
  · intro r hr
    unfold get_by_date at hr
    have h2 := List.mem_of_mem_take hr
    have h3 : r ∈ db.filter
        (fun x => x.ticker == ticker && (startI ≤ x.created_at && x.created_at ≤ endI)) := by
      simpa using h2
    have h4 := (List.mem_filter.mp h3).2
    simp only [Bool.and_eq_true, beq_iff_eq, decide_eq_true_eq] at h4
    exact ⟨h4.1, h4.2.1, h4.2.2⟩
  · unfold get_by_date
    exact List.length_take_le _ _
  · unfold get_by_date
    exact List.Pairwise.sublist (List.take_sublist _ _) (List.sorted_insertionSort tsLe _)

/-- C3 witness: the amended theorem applied to the concrete table
`[rowA, rowB]` and the returned row `rowB`. -/
theorem claim3_witness :
    rowB.ticker = "btc_usd" ∧ 0 ≤ rowB.created_at ∧ rowB.created_at ≤ 100 :=
  (claim3_theorem [rowA, rowB] "btc_usd" 0 100 10).1 rowB (by decide)

theorem gather_exists_ok_iff {ε α : Type} (rs : List (Except ε α)) :
    (∃ l, gather rs = .ok l) ↔ ∀ r ∈ rs, ∃ a, r = .ok a := by
  induction rs with
  | nil => simp [gather]
  | cons r rest ih =>
    cases r with
    | error e =>
      constructor
      · rintro ⟨l, hl⟩
        exact absurd hl (by simp [gather])
      · intro h
        obtain ⟨a, ha⟩ := h (.error e) (List.mem_cons_self _ _)
        exact absurd ha (by simp)
    | ok a =>
      constructor
      · rintro ⟨l, hl⟩
        intro r2 hr2
        rcases List.mem_cons.mp hr2 with h1 | h1
        · exact ⟨a, h1⟩
        · cases hg : gather rest with
          | error e2 =>
            rw [show gather (Except.ok a :: rest) = Except.error e2 by
              simp [gather, hg]] at hl
            exact absurd hl (by simp)
          | ok l2 => exact ((ih.mp ⟨l2, hg⟩) r2 h1)
      · intro h
        obtain ⟨l2, hl2⟩ := ih.mpr (fun r2 hr2 => h r2 (List.mem_cons_of_mem _ hr2))
        exact ⟨a :: l2, by simp [gather, hl2]⟩

theorem gather_length {ε α : Type} :
    ∀ {rs : List (Except ε α)} {l : List α}, gather rs = .ok l → l.length = rs.length := by
  intro rs
  induction rs with
  | nil =>
    intro l h
    have h2 : Except.ok ([] : List α) = Except.ok l := h
    cases h2
    rfl
  | cons r rest ih =>
    intro l h
    cases r with
    | error e =>
      have h2 : (Except.error e : Except ε (List α)) = Except.ok l := h
      exact Except.noConfusion h2
    | ok a =>
      cases hg : gather rest with
      | error e2 =>
        have h2 : (Except.error e2 : Except ε (List α)) = Except.ok l := by
          rw [← h]; simp [gather, hg]
        exact Except.noConfusion h2
      | ok l2 =>
        have h2 : (Except.ok (a :: l2) : Except ε (List α)) = Except.ok l := by
          rw [← h]; simp [gather, hg]
        cases h2
        simp [ih hg]

theorem fetch_price_exists_ok_iff (db : List IndexPriceDeribit) (now : Int)
    (t : String) (resp : UpstreamResponse) :
    (∃ m, (fetch_price db now t resp).2 = .ok m) ↔ fetch_ok resp := by
  unfold fetch_price fetch_ok insert_data
  by_cases h : 400 ≤ resp.status
  · rw [if_pos h]
    simp
    omega
  · rw [if_neg h]
    cases hp : resp.result_index_price with
    | none => simp [hp]
    | some p =>
      cases hu : resp.usOut with
      | none => simp [hp, hu]
      | some u =>
        simp [hp, hu]
        omega

theorem runTasks_snd_length (now : Int) (env : String → UpstreamResponse) :
    ∀ (ts : List String) (db : List IndexPriceDeribit),
      (runTasks now env db ts).2.length = ts.length := by
  intro ts
  induction ts with
  | nil => intro db; rfl
  | cons t ts2 ih =>
    intro db
    have hsnd : (runTasks now env db (t :: ts2)).2 =
        (fetch_price db now t (env t)).2 ::
          (runTasks now env (fetch_price db now t (env t)).1 ts2).2 := rfl
    rw [hsnd, List.length_cons, ih, List.length_cons]

theorem runTasks_all_ok_iff (now : Int) (env : String → UpstreamResponse) :
    ∀ (ts : List String) (db : List IndexPriceDeribit),
      (∀ r ∈ (runTasks now env db ts).2, ∃ m, r = .ok m) ↔
        ∀ t ∈ ts, fetch_ok (env t) := by
  intro ts
  induction ts with
  | nil => intro db; simp [runTasks]
  | cons t ts2 ih =>
    intro db
    have hsnd : (runTasks now env db (t :: ts2)).2 =
        (fetch_price db now t (env t)).2 ::
          (runTasks now env (fetch_price db now t (env t)).1 ts2).2 := rfl
    rw [hsnd]
    constructor
    · intro h t2 ht2
      rcases List.mem_cons.mp ht2 with h1 | h1
      · subst h1
        exact (fetch_price_exists_ok_iff db now t2 (env t2)).mp
          (h _ (List.mem_cons_self _ _))
      · exact ((ih _).mp (fun r hr => h r (List.mem_cons_of_mem _ hr))) t2 h1
    · intro h r hr
      rcases List.mem_cons.mp hr with h1 | h1
      · subst h1
        exact (fetch_price_exists_ok_iff db now t (env t)).mpr
          (h t (List.mem_cons_self _ _))
      · exact ((ih _).mpr (fun t2 ht2 => h t2 (List.mem_cons_of_mem _ ht2))) r h1

theorem get_prices_ok_fetch_ok {db : List IndexPriceDeribit} {now : Int}
    {env : String → UpstreamResponse} {tickers : List String}
    {l : List DeribitTimeZoneModel}
    (hl : (get_prices db now env tickers).2 = .ok l) :
    ∀ t ∈ tickers, fetch_ok (env t) := by
  have hl2 : gather (runTasks now env db tickers).2 = .ok l := hl
  exact (runTasks_all_ok_iff now env tickers db).mp
    ((gather_exists_ok_iff _).mp ⟨l, hl2⟩)

/-- C1 counterexample: a successful btc_usd fetch with source microsecond
timestamp 1700000000123456 persists a row whose `timestamp` column holds
the raw microsecond value, which differs from that value divided by
1,000,000 — so the value written to the table is not in seconds. -/
theorem claim1_counterexample :
    (fetch_price [] 0 "btc_usd" respOk).1 =
      [{ id := 1, ticker := "btc_usd", price := 50000,
         timestamp := 1700000000123456, created_at := 0 }] ∧
    (1700000000123456 : Int) ≠ Int.fdiv 1700000000123456 1000000 := by
  constructor
  · decide
  · decide

/-- C1 (corrected): on a successful fetch the Fetcher passes the raw
microsecond timestamp to `insert_data`, and the row written to the table
carries it unchanged; the division by 1,000,000 is applied only to the
`DeribitTimeZone` model that `insert_data` returns after the flush, not to
the persisted value. -/
theorem claim1_theorem (db : List IndexPriceDeribit) (now : Int) (ticker : String)
    (resp : UpstreamResponse) (p : Rat) (us : Int)
    (hst : resp.status < 400) (hp : resp.result_index_price = some p)
    (hus : resp.usOut = some us) :
    (fetch_price db now ticker resp).1 =
      db ++ [{ id := Int.ofNat db.length + 1, ticker := ticker, price := p,
               timestamp := us, created_at := now }] ∧
    (fetch_price db now ticker resp).2 =
      .ok { id := some (Int.ofNat db.length + 1), ticker := ticker, price := p,
            timestamp := Int.fdiv us 1000000, created_at := some now } := by
  unfold fetch_price
  rw [if_neg (by omega)]
  unfold insert_data
  simp [hp, hus, DeribitTimeZone_model_validate, timestamp_validator]

/-- C1 witness: the corrected claim evaluated on the concrete successful
response `respOk` over an empty table. -/
theorem claim1_witness :
    (fetch_price [] 0 "btc_usd" respOk).1 =
      [] ++ [{ id := 1, ticker := "btc_usd", price := 50000,
               timestamp := 1700000000123456, created_at := 0 }] ∧
    (fetch_price [] 0 "btc_usd" respOk).2 =
      .ok { id := some 1, ticker := "btc_usd", price := 50000,
            timestamp := Int.fdiv 1700000000123456 1000000, created_at := some 0 } :=
  claim1_theorem [] 0 "btc_usd" respOk 50000 1700000000123456 (by decide) rfl rfl

/-- C2 counterexample: with `btc_usd` succeeding and `eth_usd` answering
HTTP 500, `get_prices` propagates the `eth_usd` exception; no outcome list
is returned, so the successful `btc_usd` result is not returned either —
refuting the claim that one symbol's failure never prevents a sibling's
successful result from being returned. -/
theorem claim2_counterexample :
    (get_prices [] 0 env500 ["btc_usd", "eth_usd"]).2 =
      .error (.upstreamError 500) ∧
    ¬ ∃ l, (get_prices [] 0 env500 ["btc_usd", "eth_usd"]).2 = .ok l := by
  constructor
  · rfl
  · rintro ⟨l, hl⟩
    rw [show (get_prices [] 0 env500 ["btc_usd", "eth_usd"]).2 =
      .error (.upstreamError 500) from rfl] at hl
    exact Except.noConfusion hl

/-- C2 (corrected): `get_prices` runs one task per symbol, but gathers
with `return_exceptions` left at False, so a per-symbol outcome list is
returned when and only when every symbol's fetch succeeds; any one
symbol's exception propagates and no sibling result is returned. -/
theorem claim2_theorem (db : List IndexPriceDeribit) (now : Int)
    (env : String → UpstreamResponse) (tickers : List String) :
    (∃ l, (get_prices db now env tickers).2 = .ok l ∧ l.length = tickers.length) ↔
      ∀ t ∈ tickers, fetch_ok (env t) := by
  constructor
  · rintro ⟨l, hl, _⟩
    exact get_prices_ok_fetch_ok hl
  · intro h
    obtain ⟨l, hl⟩ := (gather_exists_ok_iff (runTasks now env db tickers).2).mpr
      ((runTasks_all_ok_iff now env tickers db).mpr h)
    have hl2 : (get_prices db now env tickers).2 = .ok l := hl
    refine ⟨l, hl2, ?_⟩
    rw [gather_length hl, runTasks_snd_length]

/-- C2 witness: the corrected claim evaluated on the single-symbol cycle
whose only fetch succeeds. -/
theorem claim2_witness :
    ∃ l, (get_prices [] 0 env500 ["btc_usd"]).2 = .ok l ∧
      l.length = ["btc_usd"].length :=
  (claim2_theorem [] 0 env500 ["btc_usd"]).mpr (by decide)

/-- C4 counterexample: a success-status `eth_usd` body lacking
`result.index_price` does not produce a `MalformedResponse` or
`MalformedTimestamp` failure — `fetch_price` constructs the record anyway
and fails inside `insert_data` with a storage error, and that exception
aborts the whole cycle's result. -/
theorem claim4_counterexample :
    (fetch_price [] 0 "eth_usd" respNoPrice).2 =
      .error (.storageError .notNullViolation) ∧
    FetchError.storageError .notNullViolation ≠ FetchError.malformedResponse ∧
    FetchError.storageError .notNullViolation ≠ FetchError.malformedTimestamp ∧
    (get_prices [] 0 envNoPrice ["btc_usd", "eth_usd"]).2 =
      .error (.storageError .notNullViolation) := by
  refine ⟨rfl, by decide, by decide, rfl⟩

/-- C4 (corrected): when the success-status body lacks
`result.index_price` or the `usOut` timestamp, `fetch_price` does not
fail fast with a malformed-response error; it builds the record with the
missing value and the insert fails at the database NOT NULL constraint
with a storage error, leaving the table unchanged — and, the exception
propagating through `asyncio.gather`, the cycle returns no per-symbol
outcome list. -/
theorem claim4_theorem (db : List IndexPriceDeribit) (now : Int) (t : String)
    (resp : UpstreamResponse) (tickers : List String)
    (env : String → UpstreamResponse)
    (hst : resp.status < 400)
    (h : resp.result_index_price = none ∨ resp.usOut = none)
    (hmem : t ∈ tickers) (henv : env t = resp) :
    fetch_price db now t resp = (db, .error (.storageError .notNullViolation)) ∧
    ¬ ∃ l, (get_prices db now env tickers).2 = .ok l := by
  constructor
  · unfold fetch_price
    rw [if_neg (by omega)]
    unfold insert_data
    rcases h with h1 | h1
    · rw [h1]
    · rw [h1]
      cases hp : resp.result_index_price <;> rfl
  · rintro ⟨l, hl⟩
    have hok : fetch_ok resp := by
      have h2 := get_prices_ok_fetch_ok hl t hmem
      rw [henv] at h2
      exact h2
    unfold fetch_ok at hok
    rcases h with h1 | h1 <;> rw [h1] at hok <;> simp at hok

/-- C4 witness: the corrected claim evaluated on the concrete
missing-price response for `eth_usd` within the two-symbol cycle. -/
theorem claim4_witness :
    fetch_price [] 0 "eth_usd" respNoPrice =
      ([], .error (.storageError .notNullViolation)) ∧
    ¬ ∃ l, (get_prices [] 0 envNoPrice ["btc_usd", "eth_usd"]).2 = .ok l :=
  claim4_theorem [] 0 "eth_usd" respNoPrice ["btc_usd", "eth_usd"] envNoPrice
    (by decide) (Or.inl rfl) (by decide) rfl

theorem mkDateFilterStart_eq (p : RawDateParts) :
    mkDateFilterStart p =
      if field_ranges_ok (defaultedStart p) then .ok (defaultedStart p)
      else .error .fieldOutOfRange := rfl

theorem mkDateFilterEnd_eq (p : RawDateParts) :
    mkDateFilterEnd p =
      if field_ranges_ok (defaultedEnd p) then .ok (defaultedEnd p)
      else .error .fieldOutOfRange := rfl

theorem mkDateFilterStart_ok {p : RawDateParts} {q : DateParts}
    (h : mkDateFilterStart p = .ok q) : q = defaultedStart p := by
  rw [mkDateFilterStart_eq] at h
  by_cases hc : field_ranges_ok (defaultedStart p)
  · rw [if_pos hc] at h
    cases h
    rfl
  · rw [if_neg hc] at h
    exact Except.noConfusion h

theorem mkDateFilterEnd_ok {p : RawDateParts} {q : DateParts}
    (h : mkDateFilterEnd p = .ok q) : q = defaultedEnd p := by
  rw [mkDateFilterEnd_eq] at h
  by_cases hc : field_ranges_ok (defaultedEnd p)
  · rw [if_pos hc] at h
    cases h
    rfl
  · rw [if_neg hc] at h
    exact Except.noConfusion h

theorem mkDateFilterStart_error_val {p : RawDateParts} {e : RequestError}
    (h : mkDateFilterStart p = .error e) : e = .fieldOutOfRange := by
  rw [mkDateFilterStart_eq] at h
  by_cases hc : field_ranges_ok (defaultedStart p)
  · rw [if_pos hc] at h
    exact Except.noConfusion h
  · rw [if_neg hc] at h
    cases h
    rfl

theorem get_date_between_error_of_invalid
    (ticker : String) (startRaw endRaw : RawDateParts) (limitRaw : Option Int)
    (h : ¬ valid_datetime (defaultedStart startRaw) ∨
      ¬ valid_datetime (defaultedEnd endRaw)) :
    ∃ e, ∀ db : List IndexPriceDeribit,
      get_date_between db ticker startRaw endRaw limitRaw = .error e := by
  cases hs : mkDateFilterStart startRaw with
  | error e =>
    refine ⟨e, fun db => ?_⟩
    unfold get_date_between
    rw [hs]
  | ok sp =>
    have hsp : sp = defaultedStart startRaw := mkDateFilterStart_ok hs
    cases he : mkDateFilterEnd endRaw with
    | error e =>
      refine ⟨e, fun db => ?_⟩
      unfold get_date_between
      rw [hs, he]
    | ok ep =>
      have hep : ep = defaultedEnd endRaw := mkDateFilterEnd_ok he
      cases hlim : limit_query_param limitRaw with
      | error e =>
        refine ⟨e, fun db => ?_⟩
        unfold get_date_between
        rw [hs, he, hlim]
      | ok lim =>
        by_cases hv : valid_datetime sp
        · have hvend : ¬ valid_datetime ep := by
            rcases h with h1 | h1
            · exact absurd (hsp ▸ hv) h1
            · rw [hep]; exact h1
          refine ⟨.invalidCalendarDate, fun db => ?_⟩
          unfold get_date_between
          rw [hs, he, hlim]
          dsimp only
          unfold dt_object
          rw [if_pos hv, if_neg hvend]
        · refine ⟨.invalidCalendarDate, fun db => ?_⟩
          unfold get_date_between
          rw [hs, he, hlim]
          dsimp only
          unfold dt_object
          rw [if_neg hv]

/-- C8 (confirmed): date parts that do not form a valid calendar date make
the period request fail — through pydantic field validation or through the
ValueError raised by the `dt_object` computed field — before any store
query is issued: the outcome is an error and does not depend on the
database contents.  Parts that do validate reach `get_by_date` as UTC
instants obtained from the local fixed-offset (UTC+3) wall-clock time. -/
theorem claim8_theorem (db db2 : List IndexPriceDeribit) (ticker : String)
    (startRaw endRaw : RawDateParts) (limitRaw : Option Int) :
    ((¬ valid_datetime (defaultedStart startRaw) ∨
        ¬ valid_datetime (defaultedEnd endRaw)) →
      (∃ e, get_date_between db ticker startRaw endRaw limitRaw = .error e) ∧
      get_date_between db ticker startRaw endRaw limitRaw =
        get_date_between db2 ticker startRaw endRaw limitRaw) ∧
    (∀ sp ep lim, mkDateFilterStart startRaw = .ok sp →
      mkDateFilterEnd endRaw = .ok ep → limit_query_param limitRaw = .ok lim →
      valid_datetime sp → valid_datetime ep →
      get_date_between db ticker startRaw endRaw limitRaw =
        .ok (get_by_date db ticker (epoch_minutes_utc sp) (epoch_minutes_utc ep) lim)) := by
  constructor
  · intro h
    obtain ⟨e, he⟩ := get_date_between_error_of_invalid ticker startRaw endRaw limitRaw h
    exact ⟨⟨e, he db⟩, by rw [he db, he db2]⟩
  · intro sp ep lim hs hend hlim hv1 hv2
    unfold get_date_between
    rw [hs, hend, hlim]
    dsimp only
    unfold dt_object
    rw [if_pos hv1, if_pos hv2]

/-- C8 witness: the theorem applied to the spec scenario month = 13, whose
parts fail validation; the request errors identically over two different
database states. -/
theorem claim8_witness :
    (∃ e, get_date_between [] "btc_usd" ⟨none, some 13, none, none, none⟩ rawNone none =
      .error e) ∧
    get_date_between [] "btc_usd" ⟨none, some 13, none, none, none⟩ rawNone none =
      get_date_between [rowA] "btc_usd" ⟨none, some 13, none, none, none⟩ rawNone none :=
  (claim8_theorem [] [rowA] "btc_usd" ⟨none, some 13, none, none, none⟩ rawNone none).1
    (Or.inl (by decide))

/-- C9 (confirmed): a supplied `start_year` or `end_year` outside
[2016, 2031] is rejected by pydantic field validation — the period request
returns the validation error whatever the database holds, so the store is
never reached — and absent parameters default to 2016-01-01T00:00 and
2031-01-01T00:00 local time (UTC instants 24193260 and 32083020 in epoch
minutes, i.e. the local wall-clock values minus the +3h offset). -/
theorem claim9_theorem (db : List IndexPriceDeribit) (ticker : String)
    (startRaw endRaw : RawDateParts) (limitRaw : Option Int) (y : Int)
    (hy : y < 2016 ∨ 2031 < y) :
    (startRaw.year = some y →
      get_date_between db ticker startRaw endRaw limitRaw = .error .fieldOutOfRange) ∧
    (endRaw.year = some y →
      get_date_between db ticker startRaw endRaw limitRaw = .error .fieldOutOfRange) ∧
    mkDateFilterStart rawNone = .ok ⟨2016, 1, 1, 0, 0⟩ ∧
    mkDateFilterEnd rawNone = .ok ⟨2031, 1, 1, 0, 0⟩ ∧
    dt_object ⟨2016, 1, 1, 0, 0⟩ = .ok 24193260 ∧
    dt_object ⟨2031, 1, 1, 0, 0⟩ = .ok 32083020 := by
  refine ⟨?_, ?_, rfl, rfl, rfl, rfl⟩
  · intro h0
    have hmk : mkDateFilterStart startRaw = .error .fieldOutOfRange := by
      rw [mkDateFilterStart_eq]
      apply if_neg
      unfold field_ranges_ok defaultedStart
      rw [h0]
      simp only [Option.getD_some]
      intro hcon
      rcases hcon with ⟨h1, h2, _⟩
      omega
    unfold get_date_between
    rw [hmk]
  · intro h0
    have hmk : mkDateFilterEnd endRaw = .error .fieldOutOfRange := by
      rw [mkDateFilterEnd_eq]
      apply if_neg
      unfold field_ranges_ok defaultedEnd
      rw [h0]
      simp only [Option.getD_some]
      intro hcon
      rcases hcon with ⟨h1, h2, _⟩
      omega
    cases hs : mkDateFilterStart startRaw with
    | error e =>
      have he : e = .fieldOutOfRange := mkDateFilterStart_error_val hs
      unfold get_date_between
      rw [hs, he]
    | ok sp =>
      unfold get_date_between
      rw [hs, hmk]

/-- C9 witness: the theorem applied to the out-of-range start year 2032
over the concrete one-row table. -/
theorem claim9_witness :
    get_date_between [rowA] "btc_usd" ⟨some 2032, none, none, none, none⟩ rawNone none =
      .error .fieldOutOfRange :=
  (claim9_theorem [rowA] "btc_usd" ⟨some 2032, none, none, none, none⟩ rawNone none 2032
    (Or.inr (by decide))).1 rfl

theorem get_last_price_mem {db : List IndexPriceDeribit} {t : String}
    {r : IndexPriceDeribit} (h : get_last_price db t = some r) : r ∈ db := by
  unfold get_last_price at h
  have h2 : r ∈ (db.filter (fun x => x.ticker == t)).insertionSort tsGe := by
    cases hs : (db.filter (fun x => x.ticker == t)).insertionSort tsGe with
    | nil =>
      rw [hs] at h
      exact Option.noConfusion h
    | cons a rest =>
      rw [hs] at h
      have ha : a = r := by simpa using h
      rw [ha]
      exact List.mem_cons_self r rest
  have h3 : r ∈ db.filter (fun x => x.ticker == t) := by simpa using h2
  exact (List.mem_filter.mp h3).1

theorem get_date_between_ok_shape {db : List IndexPriceDeribit} {ticker : String}
    {startRaw endRaw : RawDateParts} {limitRaw : Option Int}
    {rows : List IndexPriceDeribit}
    (h : get_date_between db ticker startRaw endRaw limitRaw = .ok rows) :
    ∃ s e lim, rows = get_by_date db ticker s e lim := by
  unfold get_date_between at h
  cases h1 : mkDateFilterStart startRaw with
  | error e => rw [h1] at h; exact Except.noConfusion h
  | ok sp =>
    rw [h1] at h
    dsimp only at h
    cases h2 : mkDateFilterEnd endRaw with
    | error e => rw [h2] at h; exact Except.noConfusion h
    | ok ep =>
      rw [h2] at h
      dsimp only at h
      cases h3 : limit_query_param limitRaw with
      | error e => rw [h3] at h; exact Except.noConfusion h
      | ok lim =>
        rw [h3] at h
        dsimp only at h
        cases h4 : dt_object sp with
        | error e => rw [h4] at h; exact Except.noConfusion h
        | ok s =>
          rw [h4] at h
          dsimp only at h
          cases h5 : dt_object ep with
          | error e => rw [h5] at h; exact Except.noConfusion h
          | ok e2 =>
            rw [h5] at h
            dsimp only at h
            cases h
            exact ⟨s, e2, lim, rfl⟩

/-- C10 (confirmed): all three read endpoints serialize rows through the
`DeribitTimeZone` response model, so every record they return is the
validated image of a stored row whose `timestamp` column it shows
floor-divided by 1,000,000 — a stored value already in seconds would be
divided again on read. -/
theorem claim10_theorem (db : List IndexPriceDeribit) (ticker : String)
    (limitRaw : Option Int) (startRaw endRaw : RawDateParts) :
    (∀ out, get_all_prices_endpoint db ticker limitRaw = .ok out →
      ∀ m ∈ out, ∃ r ∈ db, m = DeribitTimeZone_model_validate r ∧
        m.timestamp = Int.fdiv r.timestamp 1000000) ∧
    (∀ m, get_last_db_price_endpoint db ticker = some m →
      ∃ r ∈ db, m = DeribitTimeZone_model_validate r ∧
        m.timestamp = Int.fdiv r.timestamp 1000000) ∧
    (∀ out, get_date_between_endpoint db ticker startRaw endRaw limitRaw = .ok out →
      ∀ m ∈ out, ∃ r ∈ db, m = DeribitTimeZone_model_validate r ∧
        m.timestamp = Int.fdiv r.timestamp 1000000) := by
  refine ⟨?_, ?_, ?_⟩
  · intro out hout m hm
    unfold get_all_prices_endpoint at hout
    cases hlim : limit_query_param limitRaw with
    | error e => rw [hlim] at hout; exact Except.noConfusion hout
    | ok lim =>
      rw [hlim] at hout
      dsimp only at hout
      cases hout
      obtain ⟨r, hr, hrm⟩ := List.mem_map.mp hm
      refine ⟨r, mem_db_of_mem_get_all_by_ticker hr, hrm.symm, ?_⟩
      rw [← hrm]
      rfl
  · intro m hm
    unfold get_last_db_price_endpoint at hm
    cases hgl : get_last_price db ticker with
    | none => rw [hgl] at hm; exact Option.noConfusion hm
    | some r =>
      rw [hgl] at hm
      have hmr : DeribitTimeZone_model_validate r = m := by simpa using hm
      refine ⟨r, get_last_price_mem hgl, hmr.symm, ?_⟩
      rw [← hmr]
      rfl
  · intro out hout m hm
    unfold get_date_between_endpoint at hout
    cases hgd : get_date_between db ticker startRaw endRaw limitRaw with
    | error e => rw [hgd] at hout; exact Except.noConfusion hout
    | ok rows =>
      rw [hgd] at hout
      have hout2 : rows.map DeribitTimeZone_model_validate = out := by
        simpa [Except.map] using hout
      rw [← hout2] at hm
      obtain ⟨r, hr, hrm⟩ := List.mem_map.mp hm
      obtain ⟨s, e2, lim, hrows⟩ := get_date_between_ok_shape hgd
      rw [hrows] at hr
      refine ⟨r, mem_db_of_mem_get_by_date hr, hrm.symm, ?_⟩
      rw [← hrm]
      rfl

/-- C10 witness: the theorem applied to the latest-price endpoint over the
one-row table `[rowA]`, whose stored timestamp 200 serializes as
`Int.fdiv 200 1000000`. -/
theorem claim10_witness :
    ∃ r ∈ [rowA], DeribitTimeZone_model_validate rowA = DeribitTimeZone_model_validate r ∧
      (DeribitTimeZone_model_validate rowA).timestamp = Int.fdiv r.timestamp 1000000 :=
  (claim10_theorem [rowA] "btc_usd" none rawNone rawNone).2.1
    (DeribitTimeZone_model_validate rowA) rfl
